import Mathlib

/-!
Verification of the finconvert-backend conversion gateway (`src/server.js`,
final variant: the Express server with the `/convert` endpoint, the 60-second
subprocess timeout, the metadata extractor and the audit log).

Strings are modelled as Lean `String` (a list of Unicode code points), which
matches the JavaScript string operations used by the server on the character
repertoire that occurs here.  JavaScript-specific behaviours that the code
relies on (out-of-range array indexing yielding `undefined`, `parseInt`,
regular-expression semantics of the concrete patterns in the file) are
embedded by executable Lean functions, each documented at its definition.
-/

namespace FinConvert

/-- ASCII digit, the character class `\d` of the JavaScript regexps in
`server.js` (without the `u` flag `\d` is exactly `[0-9]`). -/
def isDigit (c : Char) : Bool := decide ('0' ≤ c ∧ c ≤ '9')

/-- The JavaScript `\s` character class (whitespace as matched by
`/\s/` and removed by `String.prototype.trim`). -/
def isJsWs (c : Char) : Bool :=
  c == ' ' || c == '\t' || c == '\n' || c == '\r' ||
  c.toNat == 0x0b || c.toNat == 0x0c || c.toNat == 0xa0 || c.toNat == 0x1680 ||
  decide (0x2000 ≤ c.toNat ∧ c.toNat ≤ 0x200a) ||
  c.toNat == 0x2028 || c.toNat == 0x2029 || c.toNat == 0x202f ||
  c.toNat == 0x205f || c.toNat == 0x3000 || c.toNat == 0xfeff

/-- Positions after which the multiline anchor `^` of
`/^[ \t]*:61:/gm` (server.js line 124) matches: the JavaScript line
terminators. -/
def isJsLineTerm (c : Char) : Bool :=
  c == '\n' || c == '\r' || c.toNat == 0x2028 || c.toNat == 0x2029

/-- The combining diacritical marks removed by
`.replace(/[̀-ͯ]/g, '')` in `sanitizeFilename` (server.js line 60). -/
def isCombining (c : Char) : Bool := decide (0x300 ≤ c.toNat ∧ c.toNat ≤ 0x36f)

/-- The character class kept by `.replace(/[^a-zA-Z0-9_\-\.]/g, '')` in
`sanitizeFilename` (server.js line 62). -/
def allowedFilenameChar (c : Char) : Bool :=
  decide ('a' ≤ c ∧ c ≤ 'z') || decide ('A' ≤ c ∧ c ≤ 'Z') ||
  decide ('0' ≤ c ∧ c ≤ '9') || c == '_' || c == '-' || c == '.'

/-- Canonical NFD decomposition, per code point, of
`String.prototype.normalize('NFD')` (server.js line 59), for the Latin
letters with diacritics this system can meet: the Polish set, the Latin-1
accented letters in both cases, and the common Latin-Extended-A letters
(caron, ring, double acute).  Letters without a canonical decomposition
(such as ł and ß) and all other characters are returned unchanged, exactly
as NFD leaves them. -/
def nfdDecomp (c : Char) : List Char :=
  match c with
  | 'ą' => ['a', '̨'] | 'Ą' => ['A', '̨']
  | 'ć' => ['c', '́'] | 'Ć' => ['C', '́']
  | 'ę' => ['e', '̨'] | 'Ę' => ['E', '̨']
  | 'ń' => ['n', '́'] | 'Ń' => ['N', '́']
  | 'ó' => ['o', '́'] | 'Ó' => ['O', '́']
  | 'ś' => ['s', '́'] | 'Ś' => ['S', '́']
  | 'ź' => ['z', '́'] | 'Ź' => ['Z', '́']
  | 'ż' => ['z', '̇'] | 'Ż' => ['Z', '̇']
  | 'á' => ['a', '́'] | 'Á' => ['A', '́']
  | 'à' => ['a', '̀'] | 'À' => ['A', '̀']
  | 'â' => ['a', '̂'] | 'Â' => ['A', '̂']
  | 'ä' => ['a', '̈'] | 'Ä' => ['A', '̈']
  | 'ã' => ['a', '̃'] | 'Ã' => ['A', '̃']
  | 'å' => ['a', '̊'] | 'Å' => ['A', '̊']
  | 'é' => ['e', '́'] | 'É' => ['E', '́']
  | 'è' => ['e', '̀'] | 'È' => ['E', '̀']
  | 'ê' => ['e', '̂'] | 'Ê' => ['E', '̂']
  | 'ë' => ['e', '̈'] | 'Ë' => ['E', '̈']
  | 'í' => ['i', '́'] | 'Í' => ['I', '́']
  | 'ì' => ['i', '̀'] | 'Ì' => ['I', '̀']
  | 'î' => ['i', '̂'] | 'Î' => ['I', '̂']
  | 'ï' => ['i', '̈'] | 'Ï' => ['I', '̈']
  | 'ñ' => ['n', '̃'] | 'Ñ' => ['N', '̃']
  | 'ò' => ['o', '̀'] | 'Ò' => ['O', '̀']
  | 'ô' => ['o', '̂'] | 'Ô' => ['O', '̂']
  | 'ö' => ['o', '̈'] | 'Ö' => ['O', '̈']
  | 'õ' => ['o', '̃'] | 'Õ' => ['O', '̃']
  | 'ú' => ['u', '́'] | 'Ú' => ['U', '́']
  | 'ù' => ['u', '̀'] | 'Ù' => ['U', '̀']
  | 'û' => ['u', '̂'] | 'Û' => ['U', '̂']
  | 'ü' => ['u', '̈'] | 'Ü' => ['U', '̈']
  | 'ý' => ['y', '́'] | 'Ý' => ['Y', '́']
  | 'ÿ' => ['y', '̈']
  | 'ç' => ['c', '̧'] | 'Ç' => ['C', '̧']
  | 'č' => ['c', '̌'] | 'Č' => ['C', '̌']
  | 'ď' => ['d', '̌'] | 'Ď' => ['D', '̌']
  | 'ě' => ['e', '̌'] | 'Ě' => ['E', '̌']
  | 'ň' => ['n', '̌'] | 'Ň' => ['N', '̌']
  | 'ř' => ['r', '̌'] | 'Ř' => ['R', '̌']
  | 'š' => ['s', '̌'] | 'Š' => ['S', '̌']
  | 'ť' => ['t', '̌'] | 'Ť' => ['T', '̌']
  | 'ž' => ['z', '̌'] | 'Ž' => ['Z', '̌']
  | 'ů' => ['u', '̊'] | 'Ů' => ['U', '̊']
  | 'ő' => ['o', '̋'] | 'Ő' => ['O', '̋']
  | 'ű' => ['u', '̋'] | 'Ű' => ['U', '̋']
  | _ => [c]

/-- The `.normalize('NFD')` step of `sanitizeFilename`. -/
def nfdNormalize (cs : List Char) : List Char := cs.flatMap nfdDecomp

/-- The `.replace(/[̀-ͯ]/g, '')` step of `sanitizeFilename`. -/
def stripCombining (cs : List Char) : List Char := cs.filter (fun c => !isCombining c)

/-- The `.replace(/\s+/g, '_')` step of `sanitizeFilename`: every maximal
run of whitespace becomes a single underscore.  The boolean argument records
whether the previous character belonged to a whitespace run. -/
def collapseWsAux : Bool → List Char → List Char
  | _, [] => []
  | prevWs, c :: cs =>
    if isJsWs c then
      if prevWs then collapseWsAux true cs else '_' :: collapseWsAux true cs
    else c :: collapseWsAux false cs

/-- The `.replace(/[^a-zA-Z0-9_\-\.]/g, '')` step of `sanitizeFilename`. -/
def removeDisallowed (cs : List Char) : List Char := cs.filter allowedFilenameChar

/-- `sanitizeFilename` from server.js lines 57-63: NFD-normalize, strip
combining marks, collapse whitespace runs to `_`, drop every character
outside `[a-zA-Z0-9_\-.]`. -/
def sanitizeFilename (name : String) : String :=
  ⟨removeDisallowed (collapseWsAux false (stripCombining (nfdNormalize name.data)))⟩

theorem sanitizeFilename_all_allowed (s : String) :
    (sanitizeFilename s).data.all allowedFilenameChar = true := by
  rw [List.all_eq_true]
  intro c hc
  exact (List.mem_filter.mp hc).2


/-- The trailing segment of a path: the characters after the last `/`. -/
def lastSeg (cs : List Char) : List Char :=
  (cs.reverse.takeWhile (fun c => c != '/')).reverse

/-- A path with its trailing slashes removed. -/
def stripTrail (cs : List Char) : List Char :=
  (cs.reverse.dropWhile (fun c => c == '/')).reverse

/-- Node `path.basename` (posix): the last path segment, ignoring trailing
slashes; the empty string stays empty and an all-slash path gives `/`. -/
def posixBasename (s : String) : String :=
  if s.data = [] then ""
  else if stripTrail s.data = [] then "/"
  else ⟨lastSeg (stripTrail s.data)⟩

/-- Node `path.extname` (posix): the suffix of the basename from its last
dot, or the empty string when the basename has no dot, when its only leading
character is the dot, or when the basename is exactly `..`. -/
def posixExtname (s : String) : String :=
  let b := (posixBasename s).data
  if b = ['.', '.'] then ""
  else
    let pre := b.reverse.takeWhile (fun c => c != '.')
    if pre.length + 1 = b.length ∨ pre.length = b.length then ""
    else ⟨'.' :: pre.reverse⟩

/-- The expression `path.basename(name, path.extname(name))` used at
server.js lines 66 and 158: the basename with its extension (when it is a
proper suffix) removed. -/
def baseNoExt (s : String) : String :=
  let b := (posixBasename s).data
  let e := (posixExtname s).data
  if e ≠ [] ∧ e.length < b.length ∧ b.reverse.take e.length = e.reverse then
    ⟨b.take (b.length - e.length)⟩
  else ⟨b⟩


/-- Character-by-character template matching.  A mask character `D` requires
an ASCII digit at that position, any other mask character requires itself;
characters of `cs` beyond the mask are unconstrained. -/
def maskMatches : List Char → List Char → Bool
  | [], _ => true
  | _ :: _, [] => false
  | m :: ms, c :: cs =>
    (if m = 'D' then isDigit c else c == m) && maskMatches ms cs

/-- The first nineteen characters of every `Date.prototype.toISOString`
value: `YYYY-MM-DDThh:mm:ss`. -/
def isoMask : List Char :=
  ['D', 'D', 'D', 'D', '-', 'D', 'D', '-', 'D', 'D', 'T',
   'D', 'D', ':', 'D', 'D', ':', 'D', 'D']

/-- The timestamp shape after `.replace(/[:T]/g,'-')`:
`YYYY-MM-DD-hh-mm-ss`. -/
def tsOutMask : List Char :=
  ['D', 'D', 'D', 'D', '-', 'D', 'D', '-', 'D', 'D', '-',
   'D', 'D', '-', 'D', 'D', '-', 'D', 'D']

/-- Environmental assumption on the clock: `new Date().toISOString()`
always yields a string whose first nineteen characters follow the ISO
template. -/
def isIso19 (ts : String) : Bool := maskMatches isoMask ts.data

/-- The per-character effect of `.replace(/[:T]/g,'-')`. -/
def convertTsChar (c : Char) : Char := if c == ':' || c == 'T' then '-' else c

/-- The timestamp expression of server.js line 68:
`new Date().toISOString().slice(0,19).replace(/[:T]/g,'-')`. -/
def convertTs (ts : String) : String := ⟨(ts.data.take 19).map convertTsChar⟩

/-- `formatOutputFilename` from server.js lines 65-70: the sanitized base
name of the original, an underscore, the converted timestamp, and the fixed
`.mt940` extension. -/
def formatOutputFilename (originalName ts : String) : String :=
  sanitizeFilename (baseNoExt originalName) ++ "_" ++ convertTs ts ++ ".mt940"


/-- Splitting a character list at every separator, keeping empty segments,
as both `String.prototype.split` and the set of multiline `^` anchor
positions do. -/
def splitBy (p : Char → Bool) : List Char → List (List Char)
  | [] => [[]]
  | c :: cs =>
    if p c then [] :: splitBy p cs
    else
      match splitBy p cs with
      | t :: ts => (c :: t) :: ts
      | [] => [[c]]

/-- Matching a literal at the head of the input, returning the rest. -/
def dropLit : List Char → List Char → Option (List Char)
  | [], cs => some cs
  | _ :: _, [] => none
  | l :: ls, c :: cs => if c = l then dropLit ls cs else none

/-- Whether a line matches the body of `/^[ \t]*:61:/` (server.js line
124): optional spaces and tabs followed by the `:61:` field tag. -/
def txLine (l : List Char) : Bool :=
  (dropLit [':', '6', '1', ':'] (l.dropWhile (fun c => c == ' ' || c == '\t'))).isSome

/-- `(mt940Contents.match(/^[ \t]*:61:/gm) || []).length` (server.js line
124): the anchor `^` matches at the start and after every line terminator,
and each such position contributes at most one match, so the count is the
number of lines satisfying `txLine`. -/
def countTransactions (contents : String) : Nat :=
  (splitBy isJsLineTerm contents.data).countP txLine

/-- The `numberOfTransactions` computation of server.js lines 121-129:
counting on the file contents when `readFileSync` succeeds, and the catch
branch reporting 0 when the output file cannot be read. -/
def numberOfTransactionsOf : Option String → Nat
  | some contents => countTransactions contents
  | none => 0


/-- Joining lines with a newline separator, the inverse of `splitBy` on
terminator-free lines; used to state the transaction-count property. -/
def joinLines : List (List Char) → List Char
  | [] => []
  | [l] => l
  | l :: ls => l ++ '\n' :: joinLines ls

/-- Leftmost-match search: JavaScript `String.prototype.match` with a
non-global regexp tries the pattern at position 0, then 1, and so on,
returning the first success. -/
def scanFor (f : List Char → Option α) : List Char → Option α
  | [] => none
  | c :: cs =>
    match f (c :: cs) with
    | some r => some r
    | none => scanFor f cs

/-- The tail `\s*([^\n\r]+)` shared by the marker patterns, with the
backtracking order of the regexp engine: `\s*` greedily consumes
whitespace and gives characters back one at a time when the mandatory
`([^\n\r]+)` cannot start; the capture is the maximal run of characters
other than `\n` and `\r` from where it starts.  The capture class is
exactly `[^\n\r]`: it accepts U+2028 and U+2029 even though `\s*` also
consumes them, so a backtracked whitespace character starts a capture
whenever it is not `\n` or `\r`. -/
def wsStarCapture : List Char → Option String
  | [] => none
  | c :: cs =>
    if isJsWs c then
      match wsStarCapture cs with
      | some r => some r
      | none =>
        if c == '\n' || c == '\r' then none
        else some ⟨(c :: cs).takeWhile (fun x => !(x == '\n' || x == '\r'))⟩
    else
      if c == '\n' || c == '\r' then none
      else some ⟨(c :: cs).takeWhile (fun x => !(x == '\n' || x == '\r'))⟩

/-- Match of `/📅\s*Miesiąc wyciągu:\s*([^\n\r]+)/` (monthPatterns[0],
server.js line 133) at the current position.  The `\s*` before the literal
`M` is equivalent to skipping the maximal whitespace run, because `M` is
not a whitespace character. -/
def p0Here (cs : List Char) : Option String :=
  match dropLit "📅".data cs with
  | some r1 =>
    match dropLit "Miesiąc wyciągu:".data (r1.dropWhile isJsWs) with
    | some r2 => wsStarCapture r2
    | none => none
  | none => none

/-- Match of `/Miesiąc:\s*([^\n\r]+)/` (monthPatterns[1], line 134) at the
current position. -/
def p1Here (cs : List Char) : Option String :=
  match dropLit "Miesiąc:".data cs with
  | some rest => wsStarCapture rest
  | none => none

/-- Match of `/(\d{2})\.(\d{2})\.(\d{4})/` (monthPatterns[2], line 135) at
the current position, returning the three captures. -/
def p2Here : List Char → Option (String × String × String)
  | a :: b :: '.' :: c :: d :: '.' :: e :: f :: g :: h :: _ =>
    if isDigit a && isDigit b && isDigit c && isDigit d &&
       isDigit e && isDigit f && isDigit g && isDigit h then
      some (⟨[a, b]⟩, ⟨[c, d]⟩, ⟨[e, f, g, h]⟩)
    else none
  | _ => none

/-- Match of `/(\d{4})-(\d{2})-(\d{2})/` (monthPatterns[3], line 136) at
the current position. -/
def p3Here : List Char → Option (String × String × String)
  | a :: b :: c :: d :: '-' :: e :: f :: '-' :: g :: h :: _ =>
    if isDigit a && isDigit b && isDigit c && isDigit d &&
       isDigit e && isDigit f && isDigit g && isDigit h then
      some (⟨[a, b, c, d]⟩, ⟨[e, f]⟩, ⟨[g, h]⟩)
    else none
  | _ => none

/-- Match of `/(\d{2})\/(\d{4})/` (monthPatterns[4], line 137) at the
current position. -/
def p4Here : List Char → Option (String × String)
  | a :: b :: '/' :: c :: d :: e :: f :: _ =>
    if isDigit a && isDigit b && isDigit c && isDigit d &&
       isDigit e && isDigit f then
      some (⟨[a, b]⟩, ⟨[c, d, e, f]⟩)
    else none
  | _ => none

/-- Match of `/Za okres od \d{2}\/(\d{2})\/(\d{4})/` (monthPatterns[5],
line 138) at the current position; the day digits are not captured. -/
def p5Here (cs : List Char) : Option (String × String) :=
  match dropLit "Za okres od ".data cs with
  | some rest =>
    match rest with
    | a :: b :: '/' :: c :: d :: '/' :: e :: f :: g :: h :: _ =>
      if isDigit a && isDigit b && isDigit c && isDigit d &&
         isDigit e && isDigit f && isDigit g && isDigit h then
        some (⟨[c, d]⟩, ⟨[e, f, g, h]⟩)
      else none
    | _ => none
  | none => none

/-- `String.prototype.trim`. -/
def jsTrim (s : String) : String :=
  ⟨((s.data.dropWhile isJsWs).reverse.dropWhile isJsWs).reverse⟩

/-- The `monthNamesPL` table of server.js lines 52-55. -/
def monthNamesPL : List String :=
  ["Styczeń", "Luty", "Marzec", "Kwiecień", "Maj", "Czerwiec",
   "Lipiec", "Sierpień", "Wrzesień", "Październik", "Listopad", "Grudzień"]

/-- JavaScript indexing `monthNamesPL[i]` interpolated into a template
string: an in-range index yields the table entry, any other index yields
`undefined`, which stringifies to `"undefined"`. -/
def monthIdxJS (i : Int) : String :=
  if 0 ≤ i ∧ i < 12 then monthNamesPL.getD i.toNat "undefined" else "undefined"

/-- `parseInt(s, 10)` restricted to the all-digit capture strings produced
by the patterns above. -/
def digitsToNat (s : String) : Nat :=
  s.data.foldl (fun a c => 10 * a + (c.toNat - 48)) 0

/-- The `for (const rx of monthPatterns)` loop of server.js lines 140-156:
the six patterns are tried in array order against the whole stdout text and
the first one that matches anywhere decides the value; `none` when no
pattern matches (statementMonth keeps its initial `Nieznany`). -/
def detectMonthStdout (s : List Char) : Option String :=
  match scanFor p0Here s with
  | some cap => some (jsTrim cap)
  | none =>
    match scanFor p1Here s with
    | some cap => some (jsTrim cap)
    | none =>
      match scanFor p2Here s with
      | some (_, mm, yyyy) =>
        some (monthIdxJS ((digitsToNat mm : Int) - 1) ++ " " ++ yyyy)
      | none =>
        match scanFor p3Here s with
        | some (yyyy, mm, _) =>
          some (monthIdxJS ((digitsToNat mm : Int) - 1) ++ " " ++ yyyy)
        | none =>
          match scanFor p4Here s with
          | some (mm, yyyy) =>
            some (monthIdxJS ((digitsToNat mm : Int) - 1) ++ " " ++ yyyy)
          | none =>
            match scanFor p5Here s with
            | some (mm, yyyy) =>
              some (monthIdxJS ((digitsToNat mm : Int) - 1) ++ " " ++ yyyy)
            | none => none

/-- The filename fallback of server.js lines 157-167: when stdout gave no
month, a stored filename whose base starts with six digits `YYYYMM` and
whose month component lies in 1..12 supplies the month; note the explicit
range guard before the table access. -/
def filenameMonth (storedFilename : String) : Option String :=
  match (baseNoExt storedFilename).data with
  | y1 :: y2 :: y3 :: y4 :: m1 :: m2 :: _ =>
    if isDigit y1 && isDigit y2 && isDigit y3 && isDigit y4 &&
       isDigit m1 && isDigit m2 then
      let mm := digitsToNat ⟨[m1, m2]⟩
      if 1 ≤ mm ∧ mm ≤ 12 then
        some (monthIdxJS ((mm : Int) - 1) ++ " " ++ ⟨[y1, y2, y3, y4]⟩)
      else none
    else none
  | _ => none

/-- The complete `statementMonth` computation of the close handler
(server.js lines 131-167 and the validation at line 184): stdout patterns,
then the filename fallback when the result is still `Nieznany`, then the
final length guard. -/
def statementMonthOf (stdout : List Char) (storedFilename : String) : String :=
  let m0 := match detectMonthStdout stdout with
            | some m => m
            | none => "Nieznany"
  let m1 := if m0 = "Nieznany" then
              match filenameMonth storedFilename with
              | some m => m
              | none => "Nieznany"
            else m0
  if m1.length < 3 then "Nieznany" else m1


/-- The ASCII half of the case-insensitive `i` flag: without the `u` flag a
non-ASCII character never case-folds onto an ASCII one, so lowering the
ASCII letters on both sides models the tests used here (all three bank
regexps are ASCII literals). -/
def asciiLower (c : Char) : Char :=
  if decide ('A' ≤ c ∧ c ≤ 'Z') then Char.ofNat (c.toNat + 32) else c

/-- `/lit/i.test(stdout)` for an ASCII literal `lit`: a case-insensitive
substring test. -/
def containsCI (needle : String) (hay : List Char) : Bool :=
  (scanFor (fun cs => dropLit (needle.data.map asciiLower) cs) (hay.map asciiLower)).isSome

/-- The first bank test of server.js line 170:
`/PKOPPLPW|Pekao|Bank Polska Kasa Opieki/i.test(stdoutData)`. -/
def pekaoLit (s : List Char) : Bool :=
  containsCI "PKOPPLPW" s || containsCI "Pekao" s || containsCI "Bank Polska Kasa Opieki" s

/-- The known-bank literal cascade of server.js lines 169-176, first match
winning; `Nieznany` when none of the three tests fires. -/
def detectBankStdout (s : List Char) : String :=
  if pekaoLit s then "Pekao"
  else if containsCI "Santander" s then "Santander"
  else if containsCI "mBank" s then "mBank"
  else "Nieznany"

/-- `cand.charAt(0).toUpperCase() + cand.slice(1).toLowerCase()` (server.js
line 181) on the ASCII-only sanitized tokens it is applied to. -/
def titleCaseJS (cs : List Char) : String :=
  match cs with
  | [] => ""
  | c :: rest => ⟨c.toUpper :: rest.map Char.toLower⟩

/-- The complete `statementBank` computation of the close handler
(server.js lines 169-183 and the validation at line 185): the literal
cascade, then the second-token-of-the-sanitized-filename fallback, then the
final length guard. -/
def statementBankOf (stdout : List Char) (storedFilename : String) : String :=
  let b0 := detectBankStdout stdout
  let b1 := if b0 = "Nieznany" then
              match splitBy (fun c => c == '_') (sanitizeFilename storedFilename).data with
              | _ :: cand :: _ => titleCaseJS cand
              | _ => "Nieznany"
            else b0
  if b1.length < 2 then "Nieznany" else b1


/-- Match of the explicit bank marker `/Wykryty bank:\s*([^\n\r]+)/` at the
current position (the marker line emitted by the converter; it appears in
the other server variants of this repository). -/
def wykrytyBankHere (cs : List Char) : Option String :=
  match dropLit "Wykryty bank:".data cs with
  | some rest => wsStarCapture rest
  | none => none

/-- Modelled from the spec, section 4.4, for comparison with
`statementBankOf`: ordered bank checks with the explicit detected-bank
marker as the second step — known literal, then title-cased marker value,
then the filename second-token fallback, then the sentinel with its length
guard.  The final server variant in src has no such marker step. -/
def specBankDetect (stdout : List Char) (storedFilename : String) : String :=
  let b0 :=
    if pekaoLit stdout then "Pekao"
    else if containsCI "Santander" stdout then "Santander"
    else if containsCI "mBank" stdout then "mBank"
    else
      match scanFor wykrytyBankHere stdout with
      | some cap => titleCaseJS (jsTrim cap).data
      | none =>
        match splitBy (fun c => c == '_') (sanitizeFilename storedFilename).data with
        | _ :: cand :: _ => titleCaseJS cand
        | _ => "Nieznany"
  if b0.length < 2 then "Nieznany" else b0


/-- The data available to the close handler of one conversion request:
the accumulated stdout and stderr buffers, the output file contents as seen
by `readFileSync` (`none` when the read throws), the multer-stored filename
and the computed output filename. -/
structure ConvEnv where
  stdoutData : String
  stderrData : String
  outputFileContents : Option String
  storedFilename : String
  outputFilename : String
deriving DecidableEq

/-- One line appended to `conversion.log` (server.js lines 189-192),
without the wall-clock timestamp prefix. -/
structure AuditEntry where
  storedFilename : String
  outputFilename : String
  statementMonth : String
  statementBank : String
  numberOfTransactions : Nat
deriving DecidableEq

/-- A JSON response as assembled by the handler, with the HTTP status it is
sent under; fields absent from a given payload are `none`. -/
structure JsonResponse where
  status : Nat
  success : Bool
  message : String
  output : Option String
  error : Option String
  downloadUrl : Option String
  statementMonth : Option String
  statementBank : Option String
  numberOfTransactions : Option Nat
deriving DecidableEq

/-- The audit line written unconditionally by the close handler, carrying
the extracted metadata. -/
def auditEntryOf (env : ConvEnv) : AuditEntry :=
  { storedFilename := env.storedFilename
    outputFilename := env.outputFilename
    statementMonth := statementMonthOf env.stdoutData.data env.storedFilename
    statementBank := statementBankOf env.stdoutData.data env.storedFilename
    numberOfTransactions := numberOfTransactionsOf env.outputFileContents }

/-- The 200 payload of server.js lines 205-214. -/
def successResponse (env : ConvEnv) : JsonResponse :=
  { status := 200
    success := true
    message := "Konwersja zakończona sukcesem."
    output := some env.stdoutData
    error := none
    downloadUrl := some ("https://finconvert-backend-1.onrender.com/outputs/" ++ env.outputFilename)
    statementMonth := some (statementMonthOf env.stdoutData.data env.storedFilename)
    statementBank := some (statementBankOf env.stdoutData.data env.storedFilename)
    numberOfTransactions := some (numberOfTransactionsOf env.outputFileContents) }

/-- The 500 payload of server.js lines 216-220, carrying the accumulated
stderr verbatim. -/
def errorResponse (stderrData : String) : JsonResponse :=
  { status := 500
    success := false
    message := "Błąd konwersji."
    output := none
    error := some stderrData
    downloadUrl := none
    statementMonth := none
    statementBank := none
    numberOfTransactions := none }

/-- The 500 payload of the timeout callback, server.js lines 100-106. -/
def timeoutResponse : JsonResponse :=
  { status := 500
    success := false
    message := "Przekroczono limit czasu konwersji (60s)."
    output := none
    error := none
    downloadUrl := none
    statementMonth := none
    statementBank := none
    numberOfTransactions := none }

/-- The branch on the exit code at server.js line 205.  A process killed by
a signal reports `code = null` to the close event, modelled as `none`; the
success payload is produced exactly for exit code 0. -/
def closeResponse (env : ConvEnv) (code : Option Int) : JsonResponse :=
  if code = some 0 then successResponse env else errorResponse env.stderrData

/-- The two events that can reach one request after its subprocess is
spawned: the 60-second timer firing, and the close event of the subprocess
with its exit code (`none` when terminated by a signal). -/
inductive ReqEvent where
  | timerFire : ReqEvent
  | procClose : Option Int → ReqEvent

/-- Observable per-request state: whether the timeout is still pending
(`clearTimeout` and firing both clear it), whether SIGKILL was sent, how
many times the metadata-extraction stage ran, the audit lines appended, and
every response the handler attempted to send, in order. -/
structure ReqState where
  timerPending : Bool
  killSent : Bool
  extractionRuns : Nat
  auditEntries : List AuditEntry
  responses : List JsonResponse
deriving DecidableEq

/-- State directly after `spawn` and `setTimeout` (server.js lines 96-106). -/
def initReqState : ReqState :=
  { timerPending := true
    killSent := false
    extractionRuns := 0
    auditEntries := []
    responses := [] }

/-- One event handled as server.js does.  The timeout callback (lines
100-106) runs only while the timer is pending: it kills the process and
sends the timeout response.  The close handler (lines 118-222) runs
unconditionally whenever the close event arrives: it clears the timeout,
extracts the metadata, appends the audit line, and sends a response chosen
by the exit code — nothing in the code guards it against a timeout that has
already responded. -/
def step (env : ConvEnv) (st : ReqState) : ReqEvent → ReqState
  | ReqEvent.timerFire =>
    if st.timerPending then
      { st with
        timerPending := false
        killSent := true
        responses := st.responses ++ [timeoutResponse] }
    else st
  | ReqEvent.procClose code =>
    { st with
      timerPending := false
      extractionRuns := st.extractionRuns + 1
      auditEntries := st.auditEntries ++ [auditEntryOf env]
      responses := st.responses ++ [closeResponse env code] }

/-- A whole conversion after the spawn: the sequence of delivered events
folded over the handlers. -/
def runConvert (env : ConvEnv) (evs : List ReqEvent) : ReqState :=
  evs.foldl (step env) initReqState

/-- The file part of an incoming multipart request as multer presents it to
the fileFilter: original client name and declared content type. -/
structure IncomingFile where
  originalname : String
  mimetype : String
deriving DecidableEq

/-- How a request leaves the validation stage: rejected with a status, a
flag telling whether the response came from the framework error path rather
than an explicit handler response, and a message — or passed on to the
conversion stage under its stored filename. -/
inductive GateOutcome where
  | rejected : Nat → Bool → String → GateOutcome
  | proceed : String → GateOutcome
deriving DecidableEq

/-- The multer fileFilter of server.js lines 78-83: accept exactly the
declared type `application/pdf`. -/
def fileFilterAccepts (f : IncomingFile) : Bool :=
  f.mimetype == "application/pdf"

/-- The validation stage of `POST /convert`.  No file part: the handler
responds 400 (lines 87-89).  A file with a non-PDF declared type: the
fileFilter passes `new Error('Tylko pliki PDF są obsługiwane.')` to the
framework; server.js installs no error-handling middleware, so the Express
default handler answers, and an error without a `status` property is sent
as 500.  An accepted PDF proceeds to the spawn under its sanitized stored
name (line 74). -/
def convertGate (file : Option IncomingFile) : GateOutcome :=
  match file with
  | none => GateOutcome.rejected 400 false "Nie przesłano pliku PDF."
  | some f =>
    if fileFilterAccepts f then GateOutcome.proceed (sanitizeFilename f.originalname)
    else GateOutcome.rejected 500 true "Tylko pliki PDF są obsługiwane."

/-- Whether a request ever spawns the converter subprocess: only a request
that passes the validation stage reaches `spawn` (server.js line 96). -/
def spawnsSubprocess (file : Option IncomingFile) : Bool :=
  match convertGate file with
  | GateOutcome.proceed _ => true
  | GateOutcome.rejected _ _ _ => false

/-- The audit lines a request produces: `fs.appendFileSync` lives inside
the close handler, so a rejected request — which never spawns — writes
none, and a spawned one writes whatever its event sequence produces. -/
def requestAudit (file : Option IncomingFile) (env : ConvEnv) (evs : List ReqEvent) :
    List AuditEntry :=
  match convertGate file with
  | GateOutcome.proceed _ => (runConvert env evs).auditEntries
  | GateOutcome.rejected _ _ _ => []

/-- Concrete close-handler environment used in witnesses: empty stdout,
stderr `boom`, unreadable output file. -/
def envA : ConvEnv :=
  { stdoutData := ""
    stderrData := "boom"
    outputFileContents := none
    storedFilename := "a.pdf"
    outputFilename := "a_x.mt940" }

/-- Concrete close-handler environment in which every extraction stage
produces a definite value: stdout names the month, the filename second
token names the bank, the output file holds two transaction records. -/
def envB : ConvEnv :=
  { stdoutData := "Miesiąc: Marzec 2024"
    stderrData := "Traceback"
    outputFileContents := some ":61:x\n:61:y"
    storedFilename := "20240701_pekao"
    outputFilename := "20240701_pekao_ts.mt940" }

/-- Concrete upload whose declared content type is not PDF. -/
def fileTxt : IncomingFile := { originalname := "a.txt", mimetype := "text/plain" }

theorem splitBy_ne_nil (p : Char → Bool) : ∀ cs : List Char, splitBy p cs ≠ []
  | [] => by simp [splitBy]
  | c :: cs => by
    simp only [splitBy]
    split
    · simp
    · split <;> simp

theorem splitBy_append_clean (p : Char → Bool) :
    ∀ (l cs hh : List Char) (tt : List (List Char)),
      splitBy p cs = hh :: tt → (∀ c ∈ l, p c = false) →
      splitBy p (l ++ cs) = (l ++ hh) :: tt := by
  intro l
  induction l with
  | nil =>
    intro cs hh tt heq _
    simpa using heq
  | cons c l ih =>
    intro cs hh tt heq hcl
    have hc : p c = false := hcl c (List.mem_cons_self c l)
    have hrec := ih cs hh tt heq (fun x hx => hcl x (List.mem_cons_of_mem c hx))
    simp [splitBy, hc, hrec]

theorem countTx_joinLines :
    ∀ ls : List (List Char), (∀ l ∈ ls, ∀ c ∈ l, isJsLineTerm c = false) →
      (splitBy isJsLineTerm (joinLines ls)).countP txLine = ls.countP txLine := by
  intro ls
  induction ls with
  | nil => intro _; decide
  | cons l ls ih =>
    intro h
    cases ls with
    | nil =>
      have hclean : ∀ c ∈ l, isJsLineTerm c = false := h l (by simp)
      have h1 : splitBy isJsLineTerm (l ++ ([] : List Char)) = (l ++ []) :: [] :=
        splitBy_append_clean _ l [] [] [] (by decide) hclean
      simp only [List.append_nil] at h1
      simp [joinLines, h1]
    | cons l2 ls2 =>
      have hclean : ∀ c ∈ l, isJsLineTerm c = false := h l (by simp)
      have hrest : ∀ x ∈ (l2 :: ls2), ∀ c ∈ x, isJsLineTerm c = false := by
        intro x hx
        exact h x (by simp [hx])
      obtain ⟨hh, tt, heq⟩ :
          ∃ hh tt, splitBy isJsLineTerm (joinLines (l2 :: ls2)) = hh :: tt := by
        cases hsp : splitBy isJsLineTerm (joinLines (l2 :: ls2)) with
        | nil => exact absurd hsp (splitBy_ne_nil _ _)
        | cons a b => exact ⟨a, b, rfl⟩
      have hterm : isJsLineTerm '\n' = true := by decide
      have hnl : splitBy isJsLineTerm ('\n' :: joinLines (l2 :: ls2)) = [] :: hh :: tt := by
        simp [splitBy, hterm, heq]
      have hmain :
          splitBy isJsLineTerm (l ++ '\n' :: joinLines (l2 :: ls2)) = (l ++ []) :: hh :: tt :=
        splitBy_append_clean _ l _ [] (hh :: tt) hnl hclean
      have ihr := ih hrest
      rw [heq] at ihr
      have hjoin : joinLines (l :: l2 :: ls2) = l ++ '\n' :: joinLines (l2 :: ls2) := rfl
      rw [hjoin, hmain]
      simp [List.countP_cons, ihr]

theorem maskMatches_length :
    ∀ ms cs : List Char, maskMatches ms cs = true → ms.length ≤ cs.length := by
  intro ms
  induction ms with
  | nil => intro cs _; simp
  | cons m ms ih =>
    intro cs h
    cases cs with
    | nil => simp [maskMatches] at h
    | cons c cs =>
      simp only [maskMatches, Bool.and_eq_true] at h
      have := ih cs h.2
      simp only [List.length_cons]
      omega

theorem digit_convertTsChar (c : Char) (h : isDigit c = true) : convertTsChar c = c := by
  have hb : (c == ':' || c == 'T') = false := by
    cases hb : (c == ':' || c == 'T')
    · rfl
    · rcases Bool.or_eq_true_iff.mp hb with h1 | h1
      · have hc : c = ':' := by simpa using h1
        subst hc
        exact absurd h (by decide)
      · have hc : c = 'T' := by simpa using h1
        subst hc
        exact absurd h (by decide)
  simp [convertTsChar, hb]

theorem maskMatches_map_convert :
    ∀ ms cs : List Char, maskMatches ms cs = true →
      maskMatches (ms.map convertTsChar) ((cs.take ms.length).map convertTsChar) = true := by
  intro ms
  induction ms with
  | nil => intro cs _; simp [maskMatches]
  | cons m ms ih =>
    intro cs h
    cases cs with
    | nil => simp [maskMatches] at h
    | cons c cs =>
      simp only [maskMatches, Bool.and_eq_true] at h
      obtain ⟨h1, h2⟩ := h
      have ih2 := ih cs h2
      simp only [List.length_cons, List.take_succ_cons, List.map_cons, maskMatches,
        Bool.and_eq_true]
      refine ⟨?_, ih2⟩
      by_cases hm : m = 'D'
      · subst hm
        rw [if_pos rfl] at h1
        rw [show convertTsChar 'D' = 'D' from by decide, if_pos rfl, digit_convertTsChar c h1]
        exact h1
      · rw [if_neg hm] at h1
        have hcm : c = m := by simpa using h1
        subst hcm
        have hne : convertTsChar c ≠ 'D' := by
          cases hb : (c == ':' || c == 'T')
          · simpa [convertTsChar, hb] using hm
          · simp [convertTsChar, hb]
        rw [if_neg hne]
        simp

theorem maskMatches_charset :
    ∀ ms cs : List Char, maskMatches ms cs = true → cs.length = ms.length →
      (∀ m ∈ ms, m = 'D' ∨ m = '-') →
      cs.all (fun c => isDigit c || c == '-') = true := by
  intro ms
  induction ms with
  | nil =>
    intro cs _ hlen _
    cases cs with
    | nil => rfl
    | cons c cs => simp at hlen
  | cons m ms ih =>
    intro cs h hlen hmem
    cases cs with
    | nil => simp at hlen
    | cons c cs =>
      simp only [maskMatches, Bool.and_eq_true] at h
      obtain ⟨h1, h2⟩ := h
      simp only [List.length_cons] at hlen
      have hrec := ih cs h2 (by omega) (fun x hx => hmem x (List.mem_cons_of_mem m hx))
      simp only [List.all_cons, Bool.and_eq_true]
      refine ⟨?_, hrec⟩
      rcases hmem m (List.mem_cons_self m ms) with rfl | rfl
      · rw [if_pos rfl] at h1
        simp [h1]
      · rw [if_neg (by decide)] at h1
        have hc : c = '-' := by simpa using h1
        subst hc
        decide

theorem digit_hyphen_allowed (c : Char) (h : (isDigit c || c == '-') = true) :
    allowedFilenameChar c = true := by
  rcases Bool.or_eq_true_iff.mp h with hd | hh
  · rw [isDigit] at hd
    simp [allowedFilenameChar, hd]
  · have hc : c = '-' := by simpa using hh
    subst hc
    decide

/-- C7: for every input string, `sanitizeFilename` is a total function
(it is a Lean `def`, hence total and deterministic and never failing),
maps the empty string to the empty string, and every character of its
output lies in the allowed set `[A-Za-z0-9_\-.]` — diacritics are stripped
to base letters by the NFD-plus-combining-mark steps, whitespace runs
become one underscore, and everything else is removed by the final
filter. -/
theorem c7_sanitize_total_and_charset :
    sanitizeFilename "" = "" ∧
    ∀ s : String, (sanitizeFilename s).data.all allowedFilenameChar = true :=
  ⟨by decide, sanitizeFilename_all_allowed⟩

/-- C8: for output-file text made of lines that contain no line
terminator, joined by newlines, the reported transaction count is exactly
the number of lines matching the `:61:` transaction-record marker; an
unreadable output file reports count 0; and the response status and
success flag never depend on the output-file contents, so a read failure
cannot fail the request. -/
theorem c8_transaction_count :
    (∀ ls : List (List Char), (∀ l ∈ ls, ∀ c ∈ l, isJsLineTerm c = false) →
      countTransactions ⟨joinLines ls⟩ = ls.countP txLine) ∧
    numberOfTransactionsOf none = 0 ∧
    ∀ (env : ConvEnv) (code : Option Int) (c₂ : Option String),
      (closeResponse { env with outputFileContents := c₂ } code).status =
        (closeResponse env code).status ∧
      (closeResponse { env with outputFileContents := c₂ } code).success =
        (closeResponse env code).success := by
  refine ⟨fun ls h => countTx_joinLines ls h, rfl, ?_⟩
  intro env code c₂
  by_cases hc : code = some 0 <;>
    simp [closeResponse, hc, successResponse, errorResponse]

/-- Witness for C8 at a concrete file: three lines, two of which match the
`:61:` marker, one of which does not. -/
theorem c8_transaction_count_witness :
    countTransactions ⟨joinLines [":61:abc".data, "x 61".data, "  :61:y".data]⟩ =
      List.countP txLine [":61:abc".data, "x 61".data, "  :61:y".data] :=
  c8_transaction_count.1 [":61:abc".data, "x 61".data, "  :61:y".data] (by decide)

/-- C9: for stdout text `Za okres od 05/03/2024` and any stored filename,
the reported statement month is the localized name for month 3 followed by
the year 2024 — `Marzec 2024` (the `(\d{2})\/(\d{4})` pattern matches the
`03/2024` portion and yields exactly that value, so the filename never
contributes). -/
theorem c9_za_okres_month :
    ∀ fname : String,
      statementMonthOf "Za okres od 05/03/2024".data fname = "Marzec 2024" ∧
      monthIdxJS (3 - 1) ++ " " ++ "2024" = "Marzec 2024" :=
  fun _ => ⟨rfl, rfl⟩

/-- C3: the claim fails on the code.  For stdout `01.13.2024` the
`DD.MM.YYYY` pattern captures month 13 and the close handler indexes the
month table at 12 without any range guard; the JavaScript access yields
`undefined` and the reported month is `undefined 2024`, not the sentinel
`Nieznany`.  The filename fallback, by contrast, carries the range guard
the spec requires, showing the guard was the intent. -/
theorem c3_month13_indexes_table :
    statementMonthOf "01.13.2024".data "x.pdf" = "undefined 2024" ∧
    monthIdxJS ((digitsToNat "13" : Int) - 1) = "undefined" ∧
    statementMonthOf "01.13.2024".data "x.pdf" ≠ "Nieznany" ∧
    filenameMonth "202413_statement.pdf" = none := by decide

/-- C4 (amended): the `Za okres od DD/MM/YYYY` marker is evaluated last,
sixth in the pattern array, not second.  Each of the three generic date
patterns decides the month as soon as the patterns before it have failed —
the conclusions of the first three conjuncts never consult the marker, so
a `DD.MM.YYYY`, `YYYY-MM-DD` or `MM/YYYY` match preempts it — and the
marker decides only when all five earlier patterns fail. -/
theorem c4_amended_za_okres_evaluated_last :
    ∀ s : List Char,
      (scanFor p0Here s = none → scanFor p1Here s = none →
        ∀ d mm yyyy, scanFor p2Here s = some (d, mm, yyyy) →
          detectMonthStdout s = some (monthIdxJS ((digitsToNat mm : Int) - 1) ++ " " ++ yyyy)) ∧
      (scanFor p0Here s = none → scanFor p1Here s = none → scanFor p2Here s = none →
        ∀ yyyy mm dd, scanFor p3Here s = some (yyyy, mm, dd) →
          detectMonthStdout s = some (monthIdxJS ((digitsToNat mm : Int) - 1) ++ " " ++ yyyy)) ∧
      (scanFor p0Here s = none → scanFor p1Here s = none → scanFor p2Here s = none →
        scanFor p3Here s = none →
        ∀ mm yyyy, scanFor p4Here s = some (mm, yyyy) →
          detectMonthStdout s = some (monthIdxJS ((digitsToNat mm : Int) - 1) ++ " " ++ yyyy)) ∧
      (scanFor p0Here s = none → scanFor p1Here s = none → scanFor p2Here s = none →
        scanFor p3Here s = none → scanFor p4Here s = none →
        ∀ mm yyyy, scanFor p5Here s = some (mm, yyyy) →
          detectMonthStdout s = some (monthIdxJS ((digitsToNat mm : Int) - 1) ++ " " ++ yyyy)) := by
  intro s
  refine ⟨?_, ?_, ?_, ?_⟩
  · intro h0 h1 d mm yyyy h2
    simp [detectMonthStdout, h0, h1, h2]
  · intro h0 h1 h2 yyyy mm dd h3
    simp [detectMonthStdout, h0, h1, h2, h3]
  · intro h0 h1 h2 h3 mm yyyy h4
    simp [detectMonthStdout, h0, h1, h2, h3, h4]
  · intro h0 h1 h2 h3 h4 mm yyyy h5
    simp [detectMonthStdout, h0, h1, h2, h3, h4, h5]

/-- Counterexample for C4 as stated: stdout holding both a generic
`DD.MM.YYYY` date (December 2024) and the `Za okres od` marker (March
2024).  The claim says the marker, evaluated second, decides; the code
reports `Grudzień 2024` from the generic date instead of the
marker-derived `Marzec 2024`. -/
theorem c4_counterexample_generic_date_beats_marker :
    statementMonthOf "01.12.2024 Za okres od 05/03/2024".data "x.pdf" = "Grudzień 2024" ∧
    scanFor p5Here "01.12.2024 Za okres od 05/03/2024".data = some ("03", "2024") ∧
    ("Grudzień 2024" : String) ≠ monthIdxJS ((digitsToNat "03" : Int) - 1) ++ " " ++ "2024" := by
  decide

/-- Witness for C4 (amended), on the counterexample stdout: the
`DD.MM.YYYY` pattern (captures 01, 12, 2024) wins although the marker is
present further right. -/
theorem c4_amended_witness :
    detectMonthStdout "01.12.2024 Za okres od 05/03/2024".data =
      some (monthIdxJS ((digitsToNat "12" : Int) - 1) ++ " " ++ "2024") :=
  (c4_amended_za_okres_evaluated_last "01.12.2024 Za okres od 05/03/2024".data).1
    (by decide) (by decide) "01" "12" "2024" (by decide)

/-- C5 (amended): bank detection in the final server variant is the
ordered literal cascade — Pekao identifiers, then Santander, then mBank,
first match winning (first three conjuncts) — and when no literal matches,
the fallback: the second underscore token of the sanitized stored filename
is title-cased and reported, guarded to `Nieznany` when shorter than two
characters (fourth conjunct), with `Nieznany` when the sanitized name has
fewer than two tokens (fifth conjunct).  There is no `Wykryty bank:`
marker step: the result depends on stdout only through the three literal
tests, as the last conjunct states. -/
theorem c5_amended_bank_detection :
    ∀ (s : List Char) (f : String),
      (pekaoLit s = true → statementBankOf s f = "Pekao") ∧
      (pekaoLit s = false → containsCI "Santander" s = true →
        statementBankOf s f = "Santander") ∧
      (pekaoLit s = false → containsCI "Santander" s = false →
        containsCI "mBank" s = true → statementBankOf s f = "mBank") ∧
      (pekaoLit s = false → containsCI "Santander" s = false →
        containsCI "mBank" s = false →
        ∀ t0 cand rest,
          splitBy (fun c => c == '_') (sanitizeFilename f).data = t0 :: cand :: rest →
          statementBankOf s f =
            if (titleCaseJS cand).length < 2 then "Nieznany" else titleCaseJS cand) ∧
      (pekaoLit s = false → containsCI "Santander" s = false →
        containsCI "mBank" s = false →
        ∀ t0, splitBy (fun c => c == '_') (sanitizeFilename f).data = [t0] →
          statementBankOf s f = "Nieznany") ∧
      (∀ s₂ : List Char, pekaoLit s = pekaoLit s₂ →
        containsCI "Santander" s = containsCI "Santander" s₂ →
        containsCI "mBank" s = containsCI "mBank" s₂ →
        statementBankOf s f = statementBankOf s₂ f) := by
  intro s f
  refine ⟨?_, ?_, ?_, ?_, ?_, ?_⟩
  · intro h
    simp [statementBankOf, detectBankStdout, h]
    decide
  · intro h1 h2
    simp [statementBankOf, detectBankStdout, h1, h2]
    decide
  · intro h1 h2 h3
    simp [statementBankOf, detectBankStdout, h1, h2, h3]
    decide
  · intro h1 h2 h3 t0 cand rest hsp
    simp [statementBankOf, detectBankStdout, h1, h2, h3, hsp]
  · intro h1 h2 h3 t0 hsp
    simp [statementBankOf, detectBankStdout, h1, h2, h3, hsp]
  · intro s₂ e1 e2 e3
    have hdb : detectBankStdout s = detectBankStdout s₂ := by
      simp only [detectBankStdout, e1, e2, e3]
    simp only [statementBankOf, hdb]

/-- Witness for C5 (amended): a Pekao literal in arbitrary casing is
reported under its canonical display name. -/
theorem c5_amended_witness :
    statementBankOf "nr rachunku PEKAO 22".data "plik.pdf" = "Pekao" :=
  ((c5_amended_bank_detection "nr rachunku PEKAO 22".data "plik.pdf").1) (by decide)

/-- Counterexample for C5 as stated: stdout carrying only the explicit
`Wykryty bank: alior` marker.  The ordered checks the claim describes
(with the marker as a step) report the title-cased `Alior`; the code in
the final server variant has no marker step and reports `Nieznany`. -/
theorem c5_counterexample_marker_not_used :
    specBankDetect "Wykryty bank: alior".data "x.pdf" = "Alior" ∧
    statementBankOf "Wykryty bank: alior".data "x.pdf" = "Nieznany" := by decide

/-- C1: the claim is right and the code is wrong.  The close-first order
does suppress the timer (`clearTimeout`, last conjunct: one response
only), but nothing suppresses the close handler after the timeout has
fired: when the timer fires first and the SIGKILLed process then closes
(exit code `null`), the handler still runs extraction, still appends the
audit line, and attempts a second terminal response — two responses in
total, against the single-terminal-outcome invariant. -/
theorem c1_timeout_then_close_still_runs :
    ∀ env : ConvEnv,
      (runConvert env [ReqEvent.timerFire, ReqEvent.procClose none]).responses =
        [timeoutResponse, errorResponse env.stderrData] ∧
      (runConvert env [ReqEvent.timerFire, ReqEvent.procClose none]).extractionRuns = 1 ∧
      (runConvert env [ReqEvent.timerFire, ReqEvent.procClose none]).auditEntries =
        [auditEntryOf env] ∧
      (runConvert env [ReqEvent.timerFire, ReqEvent.procClose none]).killSent = true ∧
      (runConvert env [ReqEvent.procClose (some 0), ReqEvent.timerFire]).responses =
        [successResponse env] :=
  fun _ => ⟨rfl, rfl, rfl, rfl, rfl⟩

/-- C2 (amended): on a non-zero (or signal) exit the response is the 500
payload with `success:false` and `error` equal to the accumulated stderr,
exactly as claimed — but extraction is not skipped: the close handler runs
the metadata extraction and appends the audit line before branching on the
exit code. -/
theorem c2_amended_nonzero_exit :
    ∀ (env : ConvEnv) (code : Option Int), code ≠ some 0 →
      (runConvert env [ReqEvent.procClose code]).responses = [errorResponse env.stderrData] ∧
      (errorResponse env.stderrData).status = 500 ∧
      (errorResponse env.stderrData).success = false ∧
      (errorResponse env.stderrData).error = some env.stderrData ∧
      (runConvert env [ReqEvent.procClose code]).extractionRuns = 1 ∧
      (runConvert env [ReqEvent.procClose code]).auditEntries = [auditEntryOf env] := by
  intro env code h
  refine ⟨?_, rfl, rfl, rfl, rfl, rfl⟩
  simp [runConvert, step, initReqState, closeResponse, h]

/-- Witness for C2 (amended) at exit code 1. -/
theorem c2_amended_witness :
    (runConvert envA [ReqEvent.procClose (some 1)]).responses = [errorResponse envA.stderrData] ∧
    (errorResponse envA.stderrData).status = 500 ∧
    (errorResponse envA.stderrData).success = false ∧
    (errorResponse envA.stderrData).error = some envA.stderrData ∧
    (runConvert envA [ReqEvent.procClose (some 1)]).extractionRuns = 1 ∧
    (runConvert envA [ReqEvent.procClose (some 1)]).auditEntries = [auditEntryOf envA] :=
  c2_amended_nonzero_exit envA (some 1) (by decide)

/-- Counterexample for C2 as stated: a conversion that exits 1.  The claim
says extraction is skipped; the close handler nevertheless extracts the
month from stdout, the bank from the filename and the transaction count
from the output file, and logs them, before sending the claimed 500
response. -/
theorem c2_counterexample_extraction_not_skipped :
    (runConvert envB [ReqEvent.procClose (some 1)]).extractionRuns = 1 ∧
    (runConvert envB [ReqEvent.procClose (some 1)]).auditEntries =
      [{ storedFilename := "20240701_pekao"
         outputFilename := "20240701_pekao_ts.mt940"
         statementMonth := "Marzec 2024"
         statementBank := "Pekao"
         numberOfTransactions := 2 }] ∧
    (runConvert envB [ReqEvent.procClose (some 1)]).responses =
      [errorResponse "Traceback"] := by decide

/-- C6 (amended): a request with no file part, or one whose declared
content type is not `application/pdf`, fails fast and synchronously —
no subprocess is spawned and no audit line is ever written.  The no-file
case is answered with an explicit 400 JSON body; the wrong-type case is
rejected through the framework error path (no error-handling middleware is
installed, so the Express default handler answers with status 500, not a
400-equivalent). -/
theorem c6_amended_rejection :
    ∀ file : Option IncomingFile,
      (file = none ∨ ∃ f, file = some f ∧ f.mimetype ≠ "application/pdf") →
      spawnsSubprocess file = false ∧
      (∀ (env : ConvEnv) (evs : List ReqEvent), requestAudit file env evs = []) ∧
      (file = none →
        convertGate file = GateOutcome.rejected 400 false "Nie przesłano pliku PDF.") ∧
      (∀ f, file = some f → f.mimetype ≠ "application/pdf" →
        convertGate file = GateOutcome.rejected 500 true "Tylko pliki PDF są obsługiwane.") := by
  intro file h
  obtain ⟨st, vi, msg, hg⟩ :
      ∃ st vi msg, convertGate file = GateOutcome.rejected st vi msg := by
    rcases h with rfl | ⟨f, rfl, hm⟩
    · exact ⟨400, false, _, rfl⟩
    · exact ⟨500, true, "Tylko pliki PDF są obsługiwane.",
        by simp [convertGate, fileFilterAccepts, hm]⟩
  refine ⟨?_, ?_, ?_, ?_⟩
  · simp [spawnsSubprocess, hg]
  · intro env evs
    simp [requestAudit, hg]
  · intro hnone
    subst hnone
    rfl
  · intro f hf hm
    subst hf
    simp [convertGate, fileFilterAccepts, hm]

/-- Witness for C6 (amended) at a concrete non-PDF upload. -/
theorem c6_amended_witness :
    spawnsSubprocess (some fileTxt) = false ∧
    (∀ (env : ConvEnv) (evs : List ReqEvent), requestAudit (some fileTxt) env evs = []) ∧
    ((some fileTxt : Option IncomingFile) = none →
      convertGate (some fileTxt) = GateOutcome.rejected 400 false "Nie przesłano pliku PDF.") ∧
    (∀ f, some fileTxt = some f → f.mimetype ≠ "application/pdf" →
      convertGate (some fileTxt) = GateOutcome.rejected 500 true "Tylko pliki PDF są obsługiwane.") :=
  c6_amended_rejection (some fileTxt) (Or.inr ⟨fileTxt, rfl, by decide⟩)

/-- Counterexample for C6 as stated: the concrete non-PDF upload is
rejected through the framework error path with status 500, not with a
400-equivalent response. -/
theorem c6_counterexample_mime_rejected_500 :
    convertGate (some fileTxt) = GateOutcome.rejected 500 true "Tylko pliki PDF są obsługiwane." ∧
    (500 : Nat) ≠ 400 := by decide

/-- C10: for every client-supplied original name and every clock value (any
string whose first nineteen characters follow the `toISOString` template),
the output filename is exactly the sanitized base, an underscore, the
`YYYY-MM-DD-hh-mm-ss` timestamp and the `.mt940` extension; every one of
its characters lies in `[A-Za-z0-9_\-.]`, so it contains no path separator
and no character needing URL escaping; and it is never empty, `.` or `..`,
so joining it under the outputs directory cannot escape that directory. -/
theorem c10_output_filename_shape :
    ∀ name ts : String, isIso19 ts = true →
      formatOutputFilename name ts =
        sanitizeFilename (baseNoExt name) ++ "_" ++ convertTs ts ++ ".mt940" ∧
      maskMatches tsOutMask (convertTs ts).data = true ∧
      (convertTs ts).data.length = 19 ∧
      (formatOutputFilename name ts).data.all allowedFilenameChar = true ∧
      '/' ∉ (formatOutputFilename name ts).data ∧
      formatOutputFilename name ts ≠ "" ∧
      formatOutputFilename name ts ≠ "." ∧
      formatOutputFilename name ts ≠ ".." := by
  intro name ts h
  rw [isIso19] at h
  have hlen0 : 19 ≤ ts.data.length := by
    have := maskMatches_length isoMask ts.data h
    simpa using this
  have hmask : maskMatches tsOutMask (convertTs ts).data = true := by
    have := maskMatches_map_convert isoMask ts.data h
    rw [show isoMask.map convertTsChar = tsOutMask from by decide,
        show isoMask.length = 19 from by decide] at this
    exact this
  have hlen : (convertTs ts).data.length = 19 := by
    simp only [convertTs, List.length_map, List.length_take]
    omega
  have hcs : (convertTs ts).data.all (fun c => isDigit c || c == '-') = true :=
    maskMatches_charset tsOutMask (convertTs ts).data hmask (by rw [hlen]; decide)
      (by decide)
  have hts : (convertTs ts).data.all allowedFilenameChar = true := by
    rw [List.all_eq_true] at hcs ⊢
    intro c hc
    exact digit_hyphen_allowed c (hcs c hc)
  have hund : ("_" : String).data.all allowedFilenameChar = true := by decide
  have hext : (".mt940" : String).data.all allowedFilenameChar = true := by decide
  have hall : (formatOutputFilename name ts).data.all allowedFilenameChar = true := by
    simp only [formatOutputFilename, String.data_append, List.all_append,
      Bool.and_eq_true]
    exact ⟨⟨⟨sanitizeFilename_all_allowed (baseNoExt name), hund⟩, hts⟩, hext⟩
  have hbig : 26 ≤ (formatOutputFilename name ts).data.length := by
    simp only [formatOutputFilename, String.data_append, List.length_append,
      List.length_cons, List.length_nil, hlen]
    omega
  refine ⟨rfl, hmask, hlen, hall, ?_, ?_, ?_, ?_⟩
  · intro hmem
    have := List.all_eq_true.mp hall '/' hmem
    exact absurd this (by decide)
  · intro heq
    rw [heq] at hbig
    exact absurd hbig (by decide)
  · intro heq
    rw [heq] at hbig
    exact absurd hbig (by decide)
  · intro heq
    rw [heq] at hbig
    exact absurd hbig (by decide)

/-- Witness for C10 at a concrete diacritic-bearing upload name and a
concrete clock value. -/
theorem c10_output_filename_shape_witness :
    formatOutputFilename "wyciąg pekao.pdf" "2025-01-02T03:04:05.678Z" =
      sanitizeFilename (baseNoExt "wyciąg pekao.pdf") ++ "_" ++
        convertTs "2025-01-02T03:04:05.678Z" ++ ".mt940" ∧
    maskMatches tsOutMask (convertTs "2025-01-02T03:04:05.678Z").data = true ∧
    (convertTs "2025-01-02T03:04:05.678Z").data.length = 19 ∧
    (formatOutputFilename "wyciąg pekao.pdf" "2025-01-02T03:04:05.678Z").data.all
      allowedFilenameChar = true ∧
    '/' ∉ (formatOutputFilename "wyciąg pekao.pdf" "2025-01-02T03:04:05.678Z").data ∧
    formatOutputFilename "wyciąg pekao.pdf" "2025-01-02T03:04:05.678Z" ≠ "" ∧
    formatOutputFilename "wyciąg pekao.pdf" "2025-01-02T03:04:05.678Z" ≠ "." ∧
    formatOutputFilename "wyciąg pekao.pdf" "2025-01-02T03:04:05.678Z" ≠ ".." :=
  c10_output_filename_shape "wyciąg pekao.pdf" "2025-01-02T03:04:05.678Z" (by decide)

end FinConvert
